import Mathlib

/-
Verification of the ipfixcol httpfieldmerge intermediate plugin.

The static configuration (IE identities, vendor signature arrays, field
mapping tables, the memoization struct and the plugin configuration
struct) is embedded directly from
src/plugins/intermediate/httpfieldmerge/httpfieldmerge.h and
src/plugins/intermediate/httpfieldmerge/field_mappings.h.

The processing engine itself (template walker, vendor recognizer,
rewrite engine, memoization store operations) lives in httpfieldmerge.c,
which is not part of the available sources; those definitions are
modelled from the specification (sections 4.2 to 4.5) and from the
documentation comments inside httpfieldmerge.h, and are marked
"Modelled from the spec" below.
-/

/-- Source struct ipfix_entity: an IPFIX Information Element identity,
a pair of a Private Enterprise Number and an element id. -/
structure ipfix_entity where
  pen : Nat
  element_id : Nat
deriving DecidableEq, Repr

/-- Boolean equality of IE identities via Nat.beq on both components. -/
def ipfix_entity.beq (a b : ipfix_entity) : Bool :=
  a.pen == b.pen && a.element_id == b.element_id

instance : BEq ipfix_entity :=
  ⟨ipfix_entity.beq⟩

instance : LawfulBEq ipfix_entity where
  eq_of_beq := by
    intro a b h
    cases a
    cases b
    have h2 : (_ == _ && _ == _) = true := h
    rw [Bool.and_eq_true, beq_iff_eq, beq_iff_eq] at h2
    simp only [ipfix_entity.mk.injEq]
    exact ⟨h2.1, h2.2⟩
  rfl := by
    intro a
    cases a
    show (_ == _ && _ == _) = true
    simp

/-- Source macro NFV9_CONVERSION_PEN 0xFFFFFFFF: sentinel PEN marking
fields converted from NetFlow v9. -/
def NFV9_CONVERSION_PEN : Nat := 0xFFFFFFFF

/-- Source macro CISCO_PEN 9. -/
def CISCO_PEN : Nat := 9

/-- Source macro INVEA_PEN 39499. -/
def INVEA_PEN : Nat := 39499

/-- Source macro MASARYK_PEN 16982. -/
def MASARYK_PEN : Nat := 16982

/-- Source macro NTOP_PEN 35632. -/
def NTOP_PEN : Nat := 35632

/-- Source macro RS_PEN 44913. -/
def RS_PEN : Nat := 44913

/-- Source macro TARGET_PEN, defined as RS_PEN. -/
def TARGET_PEN : Nat := RS_PEN

/-- Source macro ciscoHttpHost: Cisco reuses element id 12235 for all
HTTP fields; per the source comment the instance order is URL,
hostname, user agent, unknown. -/
def ciscoHttpHost : ipfix_entity := ⟨CISCO_PEN, 12235⟩

/-- Source macro ciscoHttpUrl. -/
def ciscoHttpUrl : ipfix_entity := ⟨CISCO_PEN, 12235⟩

/-- Source macro ciscoHttpUserAgent. -/
def ciscoHttpUserAgent : ipfix_entity := ⟨CISCO_PEN, 12235⟩

/-- Source macro ciscoHttpUnknown. -/
def ciscoHttpUnknown : ipfix_entity := ⟨CISCO_PEN, 12235⟩

/-- Source macro cisco_field_count 4. -/
def cisco_field_count : Nat := 4

/-- Source macro inveaHttpHost. -/
def inveaHttpHost : ipfix_entity := ⟨INVEA_PEN, 1⟩

/-- Source macro inveaHttpUrl. -/
def inveaHttpUrl : ipfix_entity := ⟨INVEA_PEN, 2⟩

/-- Source macro inveaHttpUserAgent. -/
def inveaHttpUserAgent : ipfix_entity := ⟨INVEA_PEN, 20⟩

/-- Source macro invea_field_count 3. -/
def invea_field_count : Nat := 3

/-- Source macro masarykHttpHost. -/
def masarykHttpHost : ipfix_entity := ⟨MASARYK_PEN, 501⟩

/-- Source macro masarykHttpUrl. -/
def masarykHttpUrl : ipfix_entity := ⟨MASARYK_PEN, 502⟩

/-- Source macro masarykHttpUserAgent. -/
def masarykHttpUserAgent : ipfix_entity := ⟨MASARYK_PEN, 504⟩

/-- Source macro masaryk_field_count 3. -/
def masaryk_field_count : Nat := 3

/-- Source macro ntopHttpHost. -/
def ntopHttpHost : ipfix_entity := ⟨NTOP_PEN, 187⟩

/-- Source macro ntopHttpUrl. -/
def ntopHttpUrl : ipfix_entity := ⟨NTOP_PEN, 180⟩

/-- Source macro ntopHttpUserAgent. -/
def ntopHttpUserAgent : ipfix_entity := ⟨NTOP_PEN, 183⟩

/-- Source macro ntop_field_count 3. -/
def ntop_field_count : Nat := 3

/-- Source macro ntopHttpHostv9 (original v9 id 57659). -/
def ntopHttpHostv9 : ipfix_entity := ⟨NFV9_CONVERSION_PEN, 24891⟩

/-- Source macro ntopHttpUrlv9 (original v9 id 57652). -/
def ntopHttpUrlv9 : ipfix_entity := ⟨NFV9_CONVERSION_PEN, 24884⟩

/-- Source macro ntopHttpUserAgentv9 (original v9 id 57655). -/
def ntopHttpUserAgentv9 : ipfix_entity := ⟨NFV9_CONVERSION_PEN, 24887⟩

/-- Source macro rsHttpHost. -/
def rsHttpHost : ipfix_entity := ⟨RS_PEN, 20⟩

/-- Source macro rsHttpUrl. -/
def rsHttpUrl : ipfix_entity := ⟨RS_PEN, 21⟩

/-- Source macro rsHttpUserAgent. -/
def rsHttpUserAgent : ipfix_entity := ⟨RS_PEN, 22⟩

/-- Source macro rs_field_count 3. -/
def rs_field_count : Nat := 3

/-- Source macro targetHttpHost: canonical hostname identity. -/
def targetHttpHost : ipfix_entity := ⟨TARGET_PEN, 20⟩

/-- Source macro targetHttpUrl: canonical URL identity. -/
def targetHttpUrl : ipfix_entity := ⟨TARGET_PEN, 21⟩

/-- Source macro targetHttpUserAgent: canonical user agent identity. -/
def targetHttpUserAgent : ipfix_entity := ⟨TARGET_PEN, 22⟩

/-- Source array cisco_fields. -/
def cisco_fields : List ipfix_entity :=
  [ciscoHttpHost, ciscoHttpUrl, ciscoHttpUserAgent, ciscoHttpUnknown]

/-- Source array invea_fields. -/
def invea_fields : List ipfix_entity :=
  [inveaHttpHost, inveaHttpUrl, inveaHttpUserAgent]

/-- Source array masaryk_fields. -/
def masaryk_fields : List ipfix_entity :=
  [masarykHttpHost, masarykHttpUrl, masarykHttpUserAgent]

/-- Source array ntop_fields. -/
def ntop_fields : List ipfix_entity :=
  [ntopHttpHost, ntopHttpUrl, ntopHttpUserAgent]

/-- Source array ntopv9_fields. -/
def ntopv9_fields : List ipfix_entity :=
  [ntopHttpHostv9, ntopHttpUrlv9, ntopHttpUserAgentv9]

/-- Source array rs_fields. -/
def rs_fields : List ipfix_entity :=
  [rsHttpHost, rsHttpUrl, rsHttpUserAgent]

/-- Source macro vendor_fields_count 3. -/
def vendor_fields_count : Nat := 3

/-- Source struct field_mapping: one from/to rewrite pair. The C field
names are from and to; from is a Lean keyword, hence fm_from and fm_to. -/
structure field_mapping where
  fm_from : ipfix_entity
  fm_to : ipfix_entity
deriving DecidableEq, Repr

/-- Source array invea_field_mappings. -/
def invea_field_mappings : List field_mapping :=
  [⟨inveaHttpHost, targetHttpHost⟩,
   ⟨inveaHttpUrl, targetHttpUrl⟩,
   ⟨inveaHttpUserAgent, targetHttpUserAgent⟩]

/-- Source array masaryk_field_mappings. -/
def masaryk_field_mappings : List field_mapping :=
  [⟨masarykHttpHost, targetHttpHost⟩,
   ⟨masarykHttpUrl, targetHttpUrl⟩,
   ⟨masarykHttpUserAgent, targetHttpUserAgent⟩]

/-- Source array ntop_field_mappings. -/
def ntop_field_mappings : List field_mapping :=
  [⟨ntopHttpHost, targetHttpHost⟩,
   ⟨ntopHttpUrl, targetHttpUrl⟩,
   ⟨ntopHttpUserAgent, targetHttpUserAgent⟩]

/-- Source array ntopv9_field_mappings. -/
def ntopv9_field_mappings : List field_mapping :=
  [⟨ntopHttpHostv9, targetHttpHost⟩,
   ⟨ntopHttpUrlv9, targetHttpUrl⟩,
   ⟨ntopHttpUserAgentv9, targetHttpUserAgent⟩]

/-- Source array rs_field_mappings. -/
def rs_field_mappings : List field_mapping :=
  [⟨rsHttpHost, targetHttpHost⟩,
   ⟨rsHttpUrl, targetHttpUrl⟩,
   ⟨rsHttpUserAgent, targetHttpUserAgent⟩]

/-- Modelled from the spec: a Field Specifier of a parsed template
record (section 3), in effective-identity form: the enterprise flag is
already folded into pen (pen 0 means IANA), field_length 0xFFFF means
variable length. The rewrite engine may replace pen and element_id but
must preserve field_length. -/
structure field_specifier where
  pen : Nat
  element_id : Nat
  field_length : Nat
deriving DecidableEq, Repr

/-- Modelled from the spec: the effective IE identity of a field
specifier (section 3). -/
def identityOf (f : field_specifier) : ipfix_entity :=
  ⟨f.pen, f.element_id⟩

/-- The supported vendor encodings, one per static signature array of
httpfieldmerge.h (cisco_fields, invea_fields, masaryk_fields,
ntop_fields, ntopv9_fields, rs_fields), in declaration order. -/
inductive Vendor
  | cisco
  | invea
  | masaryk
  | ntop
  | ntopv9
  | rs
deriving DecidableEq, Repr

/-- The vendor signature arrays of httpfieldmerge.h, by vendor tag. -/
def vendorSignature : Vendor → List ipfix_entity
  | .cisco => cisco_fields
  | .invea => invea_fields
  | .masaryk => masaryk_fields
  | .ntop => ntop_fields
  | .ntopv9 => ntopv9_fields
  | .rs => rs_fields

/-- The PEN constant of each vendor encoding (macros CISCO_PEN,
INVEA_PEN, MASARYK_PEN, NTOP_PEN, NFV9_CONVERSION_PEN, RS_PEN). -/
def vendorPen : Vendor → Nat
  | .cisco => CISCO_PEN
  | .invea => INVEA_PEN
  | .masaryk => MASARYK_PEN
  | .ntop => NTOP_PEN
  | .ntopv9 => NFV9_CONVERSION_PEN
  | .rs => RS_PEN

/-- The static from/to mapping table of each vendor encoding, when one
is declared in httpfieldmerge.h. Cisco has none: its signature arrays
exist (cisco_fields) but no cisco field_mapping array is declared, so
its rewrite cannot proceed by mapping-table lookup and is handled
positionally. -/
def mappingTableOf : Vendor → Option (List field_mapping)
  | .cisco => none
  | .invea => some invea_field_mappings
  | .masaryk => some masaryk_field_mappings
  | .ntop => some ntop_field_mappings
  | .ntopv9 => some ntopv9_field_mappings
  | .rs => some rs_field_mappings

/-- All vendor encodings, in the declaration order of their signature
arrays in httpfieldmerge.h; this is the recognition priority order
(spec section 4.3: ties broken by declaration order of vendor tables). -/
def all_vendors : List Vendor :=
  [.cisco, .invea, .masaryk, .ntop, .ntopv9, .rs]

/-- Modelled from the spec: the Vendor Recognizer match test of section
4.3, the engine body being in the unavailable httpfieldmerge.c. A
signature matches when every identity of the vendor signature appears
in the template at least once; for Cisco, whose encoding reuses one
identity across four meanings, the template must contain at least four
fields carrying that identity. -/
def matchesVendor (v : Vendor) (t : List field_specifier) : Bool :=
  match v with
  | .cisco => decide (4 ≤ (t.filter (fun f => identityOf f == ciscoHttpHost)).length)
  | v => (vendorSignature v).all (fun e => (t.map identityOf).contains e)

/-- Modelled from the spec: the Vendor Recognizer of section 4.3,
trying each known vendor signature in the fixed priority order. -/
def recognizeVendor (t : List field_specifier) : Option Vendor :=
  all_vendors.find? (fun v => matchesVendor v t)

/-- Modelled from the spec: one field of the Template Rewrite Engine of
section 4.4. A field whose identity appears as a from entry of the
mapping table is rewritten to the corresponding to identity; pen and
element_id are replaced, field_length is preserved. -/
def applyOneMapping (ms : List field_mapping) (f : field_specifier) : field_specifier :=
  match ms.find? (fun m => m.fm_from == identityOf f) with
  | some m => { f with pen := m.fm_to.pen, element_id := m.fm_to.element_id }
  | none => f

/-- Modelled from the spec: the Template Rewrite Engine of section 4.4
applied to a whole field list via a vendor mapping table. -/
def applyMappings (ms : List field_mapping) (t : List field_specifier) : List field_specifier :=
  t.map (applyOneMapping ms)

/-- The canonical identities assigned to the Cisco occurrences, in the
instance order documented in httpfieldmerge.h: instance 1 is the URL,
instance 2 the hostname, instance 3 the user agent string, instance 4
unknown (left alone). -/
def ciscoTargetOrder : List ipfix_entity :=
  [targetHttpUrl, targetHttpHost, targetHttpUserAgent]

/-- Modelled from the spec and the source comment of httpfieldmerge.h:
positional rewrite for the Cisco encoding, the engine body being in
the unavailable httpfieldmerge.c. The n-th occurrence of the shared
identity (counted from 0) is rewritten to ciscoTargetOrder[n] when that
exists; later occurrences and non-matching fields are unchanged;
field_length is always preserved. -/
def ciscoRewrite : Nat → List field_specifier → List field_specifier
  | _, [] => []
  | n, f :: fs =>
    if identityOf f == ciscoHttpHost then
      match ciscoTargetOrder.get? n with
      | some tgt => { f with pen := tgt.pen, element_id := tgt.element_id } :: ciscoRewrite (n + 1) fs
      | none => f :: ciscoRewrite (n + 1) fs
    else f :: ciscoRewrite n fs

/-- Modelled from the spec: processing of one template record field
list (sections 4.3 and 4.4): recognize the vendor, then rewrite via its
mapping table, positionally for Cisco; unrecognized templates are left
unchanged. -/
def processTemplate (t : List field_specifier) : List field_specifier :=
  match recognizeVendor t with
  | none => t
  | some v =>
    match mappingTableOf v with
    | some ms => applyMappings ms t
    | none => ciscoRewrite 0 t

/-- Modelled from the spec: a parsed Template Record (section 3):
template_id, scope_field_count (0 for a plain template) and the ordered
field specifiers. -/
structure template_record where
  template_id : Nat
  scope_field_count : Nat
  fields : List field_specifier
deriving DecidableEq, Repr

/-- Modelled from the spec: a parsed Set of a message (section 4.2): a
Data Set carries its set id together with its raw byte content, which
the engine never touches; a Template or Options Template Set carries
its parsed template records. -/
inductive SetRec
  | dataSet (set_id : Nat) (bytes : List Nat)
  | templateSet (recs : List template_record)
deriving DecidableEq, Repr

/-- Modelled from the spec: processing one template record rewrites its
field list and nothing else. -/
def processRecord (r : template_record) : template_record :=
  { r with fields := processTemplate r.fields }

/-- Modelled from the spec: processing one set; Data Sets pass through
untouched, template sets have each record processed (section 2). -/
def processSet : SetRec → SetRec
  | .dataSet i b => .dataSet i b
  | .templateSet recs => .templateSet (recs.map processRecord)

/-- Modelled from the spec: stateless view of processing one message, a
list of sets. -/
def processMessage (msg : List SetRec) : List SetRec :=
  msg.map processSet

/-- Source struct templ_stats_elem_t: one memoized template verdict,
keyed by the template id, holding the matched exporter PEN and the
determined flag (plus the uthash handle, which carries no data). -/
structure templ_stats_elem_t where
  id : Nat
  http_fields_pen : Nat
  http_fields_pen_determined : Bool
deriving DecidableEq, Repr

/-- Modelled from the spec: the get operation of the Template
Memoization Store (section 4.5), keyed by template id; the uthash
lookup of httpfieldmerge.c. -/
def statsGet (s : List templ_stats_elem_t) (i : Nat) : Option templ_stats_elem_t :=
  s.find? (fun e => e.id == i)

/-- Modelled from the spec: the put operation of the Template
Memoization Store (section 4.5); overwrites any prior entry for the
same template id, as uthash replace does in httpfieldmerge.c. -/
def statsPut (s : List templ_stats_elem_t) (i pen : Nat) (det : Bool) : List templ_stats_elem_t :=
  ⟨i, pen, det⟩ :: s.filter (fun e => e.id != i)

/-- Source struct httpfieldmerge_config: the per-session plugin
configuration. templ_stats is the memoization store; the source comment
places it here, not in the per-message processor, so that it persists
between IPFIX messages. Pointer members of the C struct that carry no
verifiable data (ip_config, tm) are elided. -/
structure httpfieldmerge_config where
  params : String
  ip_id : Nat
  templ_stats : List templ_stats_elem_t
deriving DecidableEq, Repr

/-- Source struct httpfieldmerge_processor: the per-message processor
state; it holds a reference to the configuration but no memoization
store of its own (it is reset for every IPFIX message). -/
structure httpfieldmerge_processor where
  msg : List Nat
  allocated_msg_length : Nat
  offset : Nat
  length : Nat
  odid : Nat
  type : Nat
  plugin_conf : httpfieldmerge_config
deriving DecidableEq, Repr

/-- Modelled from the spec: the PEN stored in the memoized verdict for
a field list: the matched vendor PEN, or 0 when no vendor matches. -/
def verdictPen (t : List field_specifier) : Nat :=
  match recognizeVendor t with
  | some v => vendorPen v
  | none => 0

/-- Modelled from the spec: stateful processing of one template record
(section 2): the verdict is stored in the configuration store keyed by
the template id (overwriting any prior entry for a redefined id), and
the record is rewritten. -/
def processRecordS (cfg : httpfieldmerge_config) (r : template_record) :
    httpfieldmerge_config × template_record :=
  ({ cfg with templ_stats := statsPut cfg.templ_stats r.template_id (verdictPen r.fields) true },
   processRecord r)

/-- Modelled from the spec: stateful processing of the records of one
template set, threading the configuration left to right. -/
def processRecordsS : httpfieldmerge_config → List template_record →
    httpfieldmerge_config × List template_record
  | cfg, [] => (cfg, [])
  | cfg, r :: rest =>
    let p := processRecordS cfg r
    let q := processRecordsS p.1 rest
    (q.1, p.2 :: q.2)

/-- Modelled from the spec: stateful processing of one set; only
template sets touch the store. -/
def processSetS (cfg : httpfieldmerge_config) : SetRec → httpfieldmerge_config × SetRec
  | .dataSet i b => (cfg, .dataSet i b)
  | .templateSet recs =>
    let q := processRecordsS cfg recs
    (q.1, .templateSet q.2)

/-- Modelled from the spec: stateful processing of one message against
a configuration instance; the store lives in the configuration and so
persists across messages processed with the same instance. -/
def processMessageS : httpfieldmerge_config → List SetRec →
    httpfieldmerge_config × List SetRec
  | cfg, [] => (cfg, [])
  | cfg, s :: rest =>
    let p := processSetS cfg s
    let q := processMessageS p.1 rest
    (q.1, p.2 :: q.2)

/-- The template ids defined by the template sets of a message. -/
def definedIds : List SetRec → List Nat
  | [] => []
  | SetRec.dataSet _ _ :: rest => definedIds rest
  | SetRec.templateSet recs :: rest => recs.map (fun r => r.template_id) ++ definedIds rest

/-- A template whose ordered identities are exactly one vendor
signature, with arbitrary per-position field lengths. -/
def mkVendorTemplate (v : Vendor) (len : Nat → Nat) : List field_specifier :=
  (vendorSignature v).enum.map (fun p => ⟨p.2.pen, p.2.element_id, len p.1⟩)

/-- The organization behind each vendor encoding: the two ntop tables
(macros ntopHttp*v9, source comments giving the original ntop v9 ids,
and the shared ntop_field_count) are two encodings of the one vendor
ntop; the others are their own. -/
inductive vendor_org
  | cisco
  | invea
  | masaryk
  | ntop
  | rs
deriving DecidableEq, Repr

/-- Organization of each vendor encoding, per the macro naming and
comments of httpfieldmerge.h. -/
def orgOf : Vendor → vendor_org
  | .cisco => .cisco
  | .invea => .invea
  | .masaryk => .masaryk
  | .ntop => .ntop
  | .ntopv9 => .ntop
  | .rs => .rs

/-- The field mapping tables declared in httpfieldmerge.h, tagged with
their vendor encoding, in declaration order. -/
def field_mapping_tables : List (Vendor × List field_mapping) :=
  [(.invea, invea_field_mappings),
   (.masaryk, masaryk_field_mappings),
   (.ntop, ntop_field_mappings),
   (.ntopv9, ntopv9_field_mappings),
   (.rs, rs_field_mappings)]

theorem processRecordsS_snd (cfg : httpfieldmerge_config) (recs : List template_record) :
    (processRecordsS cfg recs).2 = recs.map processRecord := by
  induction recs generalizing cfg with
  | nil => rfl
  | cons r rest ih => simp [processRecordsS, processRecordS, ih]

theorem processMessageS_snd (cfg : httpfieldmerge_config) (msg : List SetRec) :
    (processMessageS cfg msg).2 = processMessage msg := by
  induction msg generalizing cfg with
  | nil => rfl
  | cons s rest ih =>
    cases s with
    | dataSet i b =>
      simp [processMessageS, processSetS, processMessage, processSet, ih]
    | templateSet recs =>
      simp [processMessageS, processSetS, processMessage, processSet, ih,
        processRecordsS_snd]

theorem statsGet_statsPut_self (s : List templ_stats_elem_t) (i pen : Nat) (det : Bool) :
    statsGet (statsPut s i pen det) i = some ⟨i, pen, det⟩ := by
  simp [statsGet, statsPut, List.find?_cons]

theorem statsFind_filter_ne (s : List templ_stats_elem_t) (i j : Nat) (h : j ≠ i) :
    (s.filter (fun e => e.id != i)).find? (fun e => e.id == j)
      = s.find? (fun e => e.id == j) := by
  induction s with
  | nil => rfl
  | cons e rest ih =>
    have h3 : (i == j) = false := beq_eq_false_iff_ne.mpr (Ne.symm h)
    by_cases he : e.id = i
    · have h2 : (e.id == j) = false := by
        rw [he]
        exact h3
      simp [List.filter_cons, List.find?_cons, he, h2, h3, ih]
    · by_cases hej : e.id = j
      · simp [List.filter_cons, List.find?_cons, he, hej, h]
      · simp [List.filter_cons, List.find?_cons, he, hej, h, ih]

theorem statsGet_statsPut_ne (s : List templ_stats_elem_t) (i j pen : Nat) (det : Bool)
    (h : j ≠ i) : statsGet (statsPut s i pen det) j = statsGet s j := by
  have h2 : (i == j) = false := beq_eq_false_iff_ne.mpr (Ne.symm h)
  simp only [statsGet, statsPut, List.find?_cons, h2]
  exact statsFind_filter_ne s i j h

theorem statsPut_statsPut_same (s : List templ_stats_elem_t) (i pen pen' : Nat)
    (det det' : Bool) :
    statsPut (statsPut s i pen det) i pen' det' = statsPut s i pen' det' := by
  simp only [statsPut, List.filter_cons]
  have h1 : (i != i) = false := by simp
  simp only [h1, Bool.false_eq_true, if_false, List.filter_filter]
  simp

theorem applyOneMapping_self (ms : List field_mapping)
    (h : ∀ m ∈ ms, m.fm_from = m.fm_to) (f : field_specifier) :
    applyOneMapping ms f = f := by
  induction ms with
  | nil => rfl
  | cons m rest ih =>
    have hm : m.fm_from = m.fm_to := h m (List.mem_cons_self m rest)
    have hrest : ∀ m' ∈ rest, m'.fm_from = m'.fm_to :=
      fun m' hm' => h m' (List.mem_cons_of_mem m hm')
    by_cases hp : m.fm_from = identityOf f
    · have hb : (m.fm_from == identityOf f) = true := beq_iff_eq.mpr hp
      simp only [applyOneMapping, List.find?_cons, hb]
      have h2 : m.fm_to = identityOf f := hm ▸ hp
      rcases f with ⟨p, e, l⟩
      have h3 : m.fm_to.pen = p := by rw [h2]; rfl
      have h4 : m.fm_to.element_id = e := by rw [h2]; rfl
      simp [h3, h4]
    · have hb : (m.fm_from == identityOf f) = false := beq_eq_false_iff_ne.mpr hp
      simp only [applyOneMapping, List.find?_cons, hb]
      exact ih hrest

theorem processRecordsS_stats (cfg : httpfieldmerge_config) (recs : List template_record)
    (T : Nat) (h : T ∉ recs.map (fun r => r.template_id)) :
    statsGet (processRecordsS cfg recs).1.templ_stats T = statsGet cfg.templ_stats T := by
  induction recs generalizing cfg with
  | nil => rfl
  | cons r rest ih =>
    simp only [List.map_cons, List.mem_cons, not_or] at h
    simp only [processRecordsS]
    rw [ih _ h.2]
    simp only [processRecordS]
    exact statsGet_statsPut_ne cfg.templ_stats r.template_id T (verdictPen r.fields) true h.1

theorem processMessageS_stats (cfg : httpfieldmerge_config) (msg : List SetRec)
    (T : Nat) (h : T ∉ definedIds msg) :
    statsGet (processMessageS cfg msg).1.templ_stats T = statsGet cfg.templ_stats T := by
  induction msg generalizing cfg with
  | nil => rfl
  | cons s rest ih =>
    cases s with
    | dataSet i b =>
      simp only [definedIds] at h
      simp only [processMessageS, processSetS]
      exact ih _ h
    | templateSet recs =>
      simp only [definedIds, List.mem_append, not_or] at h
      simp only [processMessageS, processSetS]
      rw [ih _ h.2]
      exact processRecordsS_stats cfg recs T h.1

theorem processRecordsS_conf (cfg : httpfieldmerge_config) (recs : List template_record) :
    (processRecordsS cfg recs).1.params = cfg.params
      ∧ (processRecordsS cfg recs).1.ip_id = cfg.ip_id := by
  induction recs generalizing cfg with
  | nil => exact ⟨rfl, rfl⟩
  | cons r rest ih =>
    simp only [processRecordsS]
    exact ⟨(ih _).1, (ih _).2⟩

theorem processMessageS_conf (cfg : httpfieldmerge_config) (msg : List SetRec) :
    (processMessageS cfg msg).1.params = cfg.params
      ∧ (processMessageS cfg msg).1.ip_id = cfg.ip_id := by
  induction msg generalizing cfg with
  | nil => exact ⟨rfl, rfl⟩
  | cons s rest ih =>
    cases s with
    | dataSet i b =>
      simp only [processMessageS, processSetS]
      exact ⟨(ih _).1, (ih _).2⟩
    | templateSet recs =>
      simp only [processMessageS, processSetS]
      constructor
      · rw [(ih _).1]
        exact (processRecordsS_conf cfg recs).1
      · rw [(ih _).2]
        exact (processRecordsS_conf cfg recs).2

theorem applyOneMapping_head (m : field_mapping) (ms : List field_mapping)
    (f : field_specifier) (h : m.fm_from = identityOf f) :
    applyOneMapping (m :: ms) f
      = { f with pen := m.fm_to.pen, element_id := m.fm_to.element_id } := by
  have hb : (m.fm_from == identityOf f) = true := beq_iff_eq.mpr h
  simp only [applyOneMapping, List.find?_cons, hb]

theorem applyOneMapping_skip (m : field_mapping) (ms : List field_mapping)
    (f : field_specifier) (h : m.fm_from ≠ identityOf f) :
    applyOneMapping (m :: ms) f = applyOneMapping ms f := by
  have hb : (m.fm_from == identityOf f) = false := beq_eq_false_iff_ne.mpr h
  simp only [applyOneMapping, List.find?_cons, hb]

theorem entity_ne_of_element_id (a b : ipfix_entity) (h : a.element_id ≠ b.element_id) :
    a ≠ b :=
  fun hh => h (congrArg ipfix_entity.element_id hh)

theorem matches_on_v9_cisco (l : Nat → Nat) :
    matchesVendor Vendor.cisco (mkVendorTemplate Vendor.ntopv9 l) = false := by
  simp [matchesVendor, vendorSignature, mkVendorTemplate, ntopv9_fields, identityOf,
    List.enum, ciscoHttpHost, ntopHttpHostv9, ntopHttpUrlv9, ntopHttpUserAgentv9,
    CISCO_PEN, NFV9_CONVERSION_PEN]

theorem matches_on_v9_invea (l : Nat → Nat) :
    matchesVendor Vendor.invea (mkVendorTemplate Vendor.ntopv9 l) = false := by
  simp [matchesVendor, vendorSignature, mkVendorTemplate, invea_fields, ntopv9_fields,
    identityOf, List.enum, inveaHttpHost, inveaHttpUrl, inveaHttpUserAgent,
    ntopHttpHostv9, ntopHttpUrlv9, ntopHttpUserAgentv9, INVEA_PEN, NFV9_CONVERSION_PEN]

theorem matches_on_v9_masaryk (l : Nat → Nat) :
    matchesVendor Vendor.masaryk (mkVendorTemplate Vendor.ntopv9 l) = false := by
  simp [matchesVendor, vendorSignature, mkVendorTemplate, masaryk_fields, ntopv9_fields,
    identityOf, List.enum, masarykHttpHost, masarykHttpUrl, masarykHttpUserAgent,
    ntopHttpHostv9, ntopHttpUrlv9, ntopHttpUserAgentv9, MASARYK_PEN, NFV9_CONVERSION_PEN]

theorem matches_on_v9_ntop (l : Nat → Nat) :
    matchesVendor Vendor.ntop (mkVendorTemplate Vendor.ntopv9 l) = false := by
  simp [matchesVendor, vendorSignature, mkVendorTemplate, ntop_fields, ntopv9_fields,
    identityOf, List.enum, ntopHttpHost, ntopHttpUrl, ntopHttpUserAgent,
    ntopHttpHostv9, ntopHttpUrlv9, ntopHttpUserAgentv9, NTOP_PEN, NFV9_CONVERSION_PEN]

theorem matches_on_v9_ntopv9 (l : Nat → Nat) :
    matchesVendor Vendor.ntopv9 (mkVendorTemplate Vendor.ntopv9 l) = true := by
  simp [matchesVendor, vendorSignature, mkVendorTemplate, ntopv9_fields, identityOf,
    List.enum, ntopHttpHostv9, ntopHttpUrlv9, ntopHttpUserAgentv9, NFV9_CONVERSION_PEN]

theorem recognize_ntopv9 (l : Nat → Nat) :
    recognizeVendor (mkVendorTemplate Vendor.ntopv9 l) = some Vendor.ntopv9 := by
  show List.find? (fun v => matchesVendor v (mkVendorTemplate Vendor.ntopv9 l)) all_vendors
    = some Vendor.ntopv9
  rw [show all_vendors
      = Vendor.cisco :: Vendor.invea :: Vendor.masaryk :: Vendor.ntop
        :: Vendor.ntopv9 :: Vendor.rs :: [] from rfl]
  rw [List.find?_cons_of_neg _ (by rw [matches_on_v9_cisco l]; exact Bool.false_ne_true)]
  rw [List.find?_cons_of_neg _ (by rw [matches_on_v9_invea l]; exact Bool.false_ne_true)]
  rw [List.find?_cons_of_neg _ (by rw [matches_on_v9_masaryk l]; exact Bool.false_ne_true)]
  rw [List.find?_cons_of_neg _ (by rw [matches_on_v9_ntop l]; exact Bool.false_ne_true)]
  rw [@List.find?_cons_of_pos _ (fun v => matchesVendor v (mkVendorTemplate Vendor.ntopv9 l))
    Vendor.ntopv9 [Vendor.rs] (matches_on_v9_ntopv9 l)]

theorem apply_ntopv9 (l : Nat → Nat) :
    applyMappings ntopv9_field_mappings (mkVendorTemplate Vendor.ntopv9 l)
      = mkVendorTemplate Vendor.rs l := by
  have e1 : mkVendorTemplate Vendor.ntopv9 l
      = [⟨NFV9_CONVERSION_PEN, 24891, l 0⟩, ⟨NFV9_CONVERSION_PEN, 24884, l 1⟩,
         ⟨NFV9_CONVERSION_PEN, 24887, l 2⟩] := rfl
  have e2 : mkVendorTemplate Vendor.rs l
      = [⟨RS_PEN, 20, l 0⟩, ⟨RS_PEN, 21, l 1⟩, ⟨RS_PEN, 22, l 2⟩] := rfl
  have emaps : ntopv9_field_mappings
      = ⟨ntopHttpHostv9, targetHttpHost⟩
        :: ⟨ntopHttpUrlv9, targetHttpUrl⟩
        :: ⟨ntopHttpUserAgentv9, targetHttpUserAgent⟩ :: [] := rfl
  have f1 : applyOneMapping ntopv9_field_mappings ⟨NFV9_CONVERSION_PEN, 24891, l 0⟩
      = ⟨RS_PEN, 20, l 0⟩ := by
    rw [emaps, applyOneMapping_head _ _ _ rfl]
    exact rfl
  have f2 : applyOneMapping ntopv9_field_mappings ⟨NFV9_CONVERSION_PEN, 24884, l 1⟩
      = ⟨RS_PEN, 21, l 1⟩ := by
    rw [emaps,
      applyOneMapping_skip _ _ _
        (entity_ne_of_element_id _ _ (by simp [ntopHttpHostv9, identityOf])),
      applyOneMapping_head _ _ _ rfl]
    exact rfl
  have f3 : applyOneMapping ntopv9_field_mappings ⟨NFV9_CONVERSION_PEN, 24887, l 2⟩
      = ⟨RS_PEN, 22, l 2⟩ := by
    rw [emaps,
      applyOneMapping_skip _ _ _
        (entity_ne_of_element_id _ _ (by simp [ntopHttpHostv9, identityOf])),
      applyOneMapping_skip _ _ _
        (entity_ne_of_element_id _ _ (by simp [ntopHttpUrlv9, identityOf])),
      applyOneMapping_head _ _ _ rfl]
    exact rfl
  rw [e1, e2]
  simp only [applyMappings, List.map_cons, List.map_nil]
  rw [f1, f2, f3]

theorem processTemplate_of_recognize (t : List field_specifier) (v : Vendor)
    (ms : List field_mapping) (h : recognizeVendor t = some v)
    (hm : mappingTableOf v = some ms) :
    processTemplate t = applyMappings ms t := by
  unfold processTemplate
  rewrite [h]
  show (match mappingTableOf v with
    | some ms => applyMappings ms t
    | none => ciscoRewrite 0 t) = applyMappings ms t
  rewrite [hm]
  rfl

theorem process_ntopv9 (l : Nat → Nat) :
    processTemplate (mkVendorTemplate Vendor.ntopv9 l) = mkVendorTemplate Vendor.rs l :=
  calc processTemplate (mkVendorTemplate Vendor.ntopv9 l)
      = applyMappings ntopv9_field_mappings (mkVendorTemplate Vendor.ntopv9 l) :=
        processTemplate_of_recognize _ _ _ (recognize_ntopv9 l) rfl
    _ = mkVendorTemplate Vendor.rs l := apply_ntopv9 l


/-- C1: a template with ordered field identities (39499,1), (39499,2),
(39499,20) and field lengths 4, 0xFFFF, 0xFFFF is recognized as the
INVEA-TECH encoding and rewritten, in order, to identities (44913,20),
(44913,21), (44913,22), each field keeping its field_length. -/
theorem invea_concrete_recognition_and_rewrite :
    recognizeVendor [⟨39499, 1, 4⟩, ⟨39499, 2, 0xFFFF⟩, ⟨39499, 20, 0xFFFF⟩]
      = some Vendor.invea
    ∧ processTemplate [⟨39499, 1, 4⟩, ⟨39499, 2, 0xFFFF⟩, ⟨39499, 20, 0xFFFF⟩]
      = [⟨44913, 20, 4⟩, ⟨44913, 21, 0xFFFF⟩, ⟨44913, 22, 0xFFFF⟩] :=
  ⟨rfl, rfl⟩

/-- C4: in a template of four fields all carrying the shared Cisco
identity (9,12235), processing rewrites the first occurrence to the
canonical URL identity (44913,21), the second to the canonical hostname
identity (44913,20), the third to the canonical user agent identity
(44913,22), and leaves the fourth occurrence unmodified, preserving
every field_length. -/
theorem cisco_positional_rewrite (l1 l2 l3 l4 : Nat) :
    processTemplate
        [⟨9, 12235, l1⟩, ⟨9, 12235, l2⟩, ⟨9, 12235, l3⟩, ⟨9, 12235, l4⟩]
      = [⟨44913, 21, l1⟩, ⟨44913, 20, l2⟩, ⟨44913, 22, l3⟩, ⟨9, 12235, l4⟩]
    ∧ targetHttpUrl = ⟨44913, 21⟩
    ∧ targetHttpHost = ⟨44913, 20⟩
    ∧ targetHttpUserAgent = ⟨44913, 22⟩ :=
  ⟨rfl, rfl, rfl, rfl⟩

/-- C5 counterexample: the first occurrence of the shared Cisco
identity is not rewritten to the canonical hostname identity and the
second is not rewritten to the canonical URL identity; the claimed
output is refuted at a concrete four-field Cisco template. -/
theorem cisco_first_occurrence_not_hostname :
    ¬ (processTemplate
          [⟨9, 12235, 1⟩, ⟨9, 12235, 2⟩, ⟨9, 12235, 3⟩, ⟨9, 12235, 4⟩]
        = [⟨44913, 20, 1⟩, ⟨44913, 21, 2⟩, ⟨44913, 22, 3⟩, ⟨9, 12235, 4⟩]) := by
  decide

/-- C5 (amended): for the positionally-disambiguated vendor, the first
occurrence of the shared identity is rewritten to the canonical URL
identity, the second to the canonical hostname identity, the third to
the canonical user agent identity (the documented vendor emission order
URL, hostname, user agent, unknown), and the fourth occurrence is left
unrewritten. -/
theorem cisco_documented_order_rewrite (l1 l2 l3 l4 : Nat) :
    (processTemplate
        [⟨9, 12235, l1⟩, ⟨9, 12235, l2⟩, ⟨9, 12235, l3⟩, ⟨9, 12235, l4⟩]).get? 0
      = some ⟨targetHttpUrl.pen, targetHttpUrl.element_id, l1⟩
    ∧ (processTemplate
        [⟨9, 12235, l1⟩, ⟨9, 12235, l2⟩, ⟨9, 12235, l3⟩, ⟨9, 12235, l4⟩]).get? 1
      = some ⟨targetHttpHost.pen, targetHttpHost.element_id, l2⟩
    ∧ (processTemplate
        [⟨9, 12235, l1⟩, ⟨9, 12235, l2⟩, ⟨9, 12235, l3⟩, ⟨9, 12235, l4⟩]).get? 2
      = some ⟨targetHttpUserAgent.pen, targetHttpUserAgent.element_id, l3⟩
    ∧ (processTemplate
        [⟨9, 12235, l1⟩, ⟨9, 12235, l2⟩, ⟨9, 12235, l3⟩, ⟨9, 12235, l4⟩]).get? 3
      = some ⟨9, 12235, l4⟩ :=
  ⟨rfl, rfl, rfl, rfl⟩

/-- C6: the NetFlow-v9-converted ntop encoding (sentinel PEN
0xFFFFFFFF, ids 24891/24884/24887) and the native ntop IPFIX encoding
(PEN 35632, ids 187/180/183) are recognized as two distinct vendor
signatures, and rewriting a template of either signature yields the
same canonical identities (44913,20), (44913,21), (44913,22) for
hostname, URL and user agent respectively. -/
theorem ntop_dual_encoding (l l' : Nat → Nat) :
    recognizeVendor (mkVendorTemplate Vendor.ntop l) = some Vendor.ntop
    ∧ recognizeVendor (mkVendorTemplate Vendor.ntopv9 l') = some Vendor.ntopv9
    ∧ Vendor.ntop ≠ Vendor.ntopv9
    ∧ ntop_fields = [⟨35632, 187⟩, ⟨35632, 180⟩, ⟨35632, 183⟩]
    ∧ ntopv9_fields = [⟨0xFFFFFFFF, 24891⟩, ⟨0xFFFFFFFF, 24884⟩, ⟨0xFFFFFFFF, 24887⟩]
    ∧ (processTemplate (mkVendorTemplate Vendor.ntop l)).map identityOf
      = [⟨44913, 20⟩, ⟨44913, 21⟩, ⟨44913, 22⟩]
    ∧ (processTemplate (mkVendorTemplate Vendor.ntopv9 l')).map identityOf
      = [⟨44913, 20⟩, ⟨44913, 21⟩, ⟨44913, 22⟩]
    ∧ ntop_field_mappings.map (fun m => m.fm_to)
      = [targetHttpHost, targetHttpUrl, targetHttpUserAgent]
    ∧ ntopv9_field_mappings.map (fun m => m.fm_to)
      = [targetHttpHost, targetHttpUrl, targetHttpUserAgent] :=
  ⟨rfl, recognize_ntopv9 l', by decide, rfl, rfl, rfl,
   by rw [process_ntopv9 l']; exact rfl, rfl, rfl⟩

/-- C7: the static configuration declares exactly five vendor field
mapping tables, each an ordered list of from/to pairs; exactly two of
them (the native IPFIX table of ntop and its NetFlow-v9-converted
table, the latter keyed under the sentinel conversion PEN) are two
numerically distinct encodings of the one vendor ntop, and the
remaining three tables belong to three other, pairwise distinct
vendors. -/
theorem five_mapping_tables :
    field_mapping_tables.length = 5
    ∧ field_mapping_tables.map (fun p => orgOf p.1)
      = [vendor_org.invea, vendor_org.masaryk, vendor_org.ntop,
         vendor_org.ntop, vendor_org.rs]
    ∧ (field_mapping_tables.map (fun p => orgOf p.1)).count vendor_org.ntop = 2
    ∧ [vendor_org.invea, vendor_org.masaryk, vendor_org.rs].Pairwise (fun a b => a ≠ b)
    ∧ ([vendor_org.invea, vendor_org.masaryk, vendor_org.rs].all
        (fun o => o != vendor_org.ntop)) = true
    ∧ (ntopv9_field_mappings.all (fun m => m.fm_from.pen == NFV9_CONVERSION_PEN)) = true
    ∧ (ntop_field_mappings.all (fun m => m.fm_from.pen == NTOP_PEN)) = true :=
  ⟨rfl, rfl, by decide, by decide, by decide, by decide, by decide⟩

/-- C9: every entry of the rs mapping table maps an identity to itself,
its from column is exactly the canonical target identities, and
applying the rs mapping table to any field list is the identity
transformation. -/
theorem rs_mapping_identity :
    (rs_field_mappings.all (fun m => m.fm_from == m.fm_to)) = true
    ∧ rs_field_mappings.map (fun m => m.fm_from)
      = [targetHttpHost, targetHttpUrl, targetHttpUserAgent]
    ∧ ∀ t : List field_specifier, applyMappings rs_field_mappings t = t := by
  refine ⟨by decide, by decide, ?_⟩
  intro t
  have hself : ∀ m ∈ rs_field_mappings, m.fm_from = m.fm_to := by decide
  calc applyMappings rs_field_mappings t
      = t.map id := List.map_congr_left (fun f _ => applyOneMapping_self rs_field_mappings hself f)
    _ = t := List.map_id t

/-- C10: the Cisco signature consists of four structurally equal
identities (9,12235), its declared field count is 4 while the common
vendor field count constant is 3, no Cisco mapping table is declared,
and Cisco is the only vendor encoding without a mapping table. -/
theorem cisco_no_mapping_table :
    cisco_fields = List.replicate 4 (⟨9, 12235⟩ : ipfix_entity)
    ∧ cisco_field_count = 4
    ∧ cisco_fields.length = cisco_field_count
    ∧ vendor_fields_count = 3
    ∧ mappingTableOf Vendor.cisco = none
    ∧ all_vendors.filter (fun v => (mappingTableOf v).isNone) = [Vendor.cisco] :=
  ⟨by decide, rfl, rfl, rfl, rfl, by decide⟩

/-- C2: processing never changes a Data Set (position and byte content
are preserved for every data set of every message), and a template of
an unrecognized encoding is left identical to the input. -/
theorem data_set_and_unrecognized_invariance :
    (∀ (cfg : httpfieldmerge_config) (msg : List SetRec) (k sid : Nat) (b : List Nat),
        msg.get? k = some (SetRec.dataSet sid b) →
        ((processMessageS cfg msg).2).get? k = some (SetRec.dataSet sid b))
    ∧ (∀ t : List field_specifier, recognizeVendor t = none → processTemplate t = t) := by
  constructor
  · intro cfg msg k sid b h
    rw [processMessageS_snd]
    unfold processMessage
    rw [List.get?_map, h]
    rfl
  · intro t h
    unfold processTemplate
    rw [h]

/-- Witness for the data set invariance theorem at a concrete message
and a concrete unrecognized template. -/
theorem data_set_and_unrecognized_invariance_witness :
    ((processMessageS ⟨"", 0, []⟩ [SetRec.dataSet 300 [1, 2, 3]]).2).get? 0
      = some (SetRec.dataSet 300 [1, 2, 3])
    ∧ processTemplate [⟨0, 1, 4⟩] = [⟨0, 1, 4⟩] :=
  ⟨data_set_and_unrecognized_invariance.1 ⟨"", 0, []⟩
      [SetRec.dataSet 300 [1, 2, 3]] 0 300 [1, 2, 3] rfl,
   data_set_and_unrecognized_invariance.2 [⟨0, 1, 4⟩] rfl⟩

/-- C3 counterexample: each canonical identity (44913,20), (44913,21),
(44913,22) does occur as a from entry of a vendor mapping table, namely
of rs_field_mappings, refuting that the canonical identities never
match any vendor mapping table from entry. -/
theorem canonical_identity_is_rs_from_entry :
    ((rs_field_mappings.map (fun m => m.fm_from)).contains targetHttpHost) = true
    ∧ targetHttpHost = ⟨44913, 20⟩
    ∧ targetHttpUrl = ⟨44913, 21⟩
    ∧ targetHttpUserAgent = ⟨44913, 22⟩
    ∧ ((rs_field_mappings.map (fun m => m.fm_from)).contains targetHttpUrl) = true
    ∧ ((rs_field_mappings.map (fun m => m.fm_from)).contains targetHttpUserAgent) = true :=
  ⟨rfl, rfl, rfl, rfl, rfl, rfl⟩

/-- C3 (amended): processing is idempotent on single-encoding
templates: a second run changes nothing on any template whose fields
are exactly one vendor signature, and on any message all of whose
template records are of that shape; the canonical identities do match
the from entries of the rs mapping table, but every rs mapping maps its
identity to itself, so the second pass rewrites nothing. -/
theorem single_vendor_idempotent :
    (∀ (v : Vendor) (len : Nat → Nat),
        processTemplate (processTemplate (mkVendorTemplate v len))
          = processTemplate (mkVendorTemplate v len))
    ∧ (∀ (cfg cfg' : httpfieldmerge_config) (msg : List SetRec),
        (∀ recs, SetRec.templateSet recs ∈ msg →
            ∀ r ∈ recs, ∃ v len, r.fields = mkVendorTemplate v len) →
        (processMessageS cfg' (processMessageS cfg msg).2).2
          = (processMessageS cfg msg).2) := by
  have tmpl : ∀ (v : Vendor) (len : Nat → Nat),
      processTemplate (processTemplate (mkVendorTemplate v len))
        = processTemplate (mkVendorTemplate v len) := by
    intro v len
    cases v with
    | cisco => rfl
    | invea => rfl
    | masaryk => rfl
    | ntop => rfl
    | ntopv9 =>
      rw [process_ntopv9]
      exact rfl
    | rs => rfl
  refine ⟨tmpl, ?_⟩
  intro cfg cfg' msg h
  rw [processMessageS_snd, processMessageS_snd]
  unfold processMessage
  rw [List.map_map]
  apply List.map_congr_left
  intro s hs
  cases s with
  | dataSet i b => rfl
  | templateSet recs =>
    show processSet (processSet (SetRec.templateSet recs)) = processSet (SetRec.templateSet recs)
    simp only [processSet]
    congr 1
    rw [List.map_map]
    apply List.map_congr_left
    intro r hr
    obtain ⟨v, len, hf⟩ := h recs hs r hr
    show processRecord (processRecord r) = processRecord r
    show template_record.mk r.template_id r.scope_field_count
        (processTemplate (processTemplate r.fields))
      = template_record.mk r.template_id r.scope_field_count (processTemplate r.fields)
    rw [hf, tmpl v len]

/-- Witness for the idempotence theorem at a concrete message holding
one INVEA-TECH template record. -/
theorem single_vendor_idempotent_witness :
    (processMessageS ⟨"", 0, []⟩
        (processMessageS ⟨"", 0, []⟩
          [SetRec.templateSet [⟨256, 0, mkVendorTemplate Vendor.invea (fun _ => 65535)⟩]]).2).2
      = (processMessageS ⟨"", 0, []⟩
          [SetRec.templateSet [⟨256, 0, mkVendorTemplate Vendor.invea (fun _ => 65535)⟩]]).2 :=
  single_vendor_idempotent.2 ⟨"", 0, []⟩ ⟨"", 0, []⟩
    [SetRec.templateSet [⟨256, 0, mkVendorTemplate Vendor.invea (fun _ => 65535)⟩]]
    (by
      intro recs hmem r hr
      simp only [List.mem_singleton, SetRec.templateSet.injEq] at hmem
      subst hmem
      simp only [List.mem_singleton] at hr
      subst hr
      exact ⟨Vendor.invea, fun _ => 65535, rfl⟩)

/-- C8: the memoized verdict store is keyed by the template id, an
entry holds exactly the matched PEN and the determined flag, a put for
an existing id overwrites the prior entry and leaves other ids
untouched, and the store lives in the per-session configuration, so it
persists across messages (a message defining no template set entry for
an id leaves the verdict of that id unchanged) while the other
configuration fields are never modified by processing. -/
theorem templ_stats_store_spec :
    (∀ (s : List templ_stats_elem_t) (i pen : Nat) (det : Bool),
        statsGet (statsPut s i pen det) i = some ⟨i, pen, det⟩)
    ∧ (∀ (s : List templ_stats_elem_t) (i pen pen' : Nat) (det det' : Bool),
        statsPut (statsPut s i pen det) i pen' det' = statsPut s i pen' det')
    ∧ (∀ (s : List templ_stats_elem_t) (i j pen : Nat) (det : Bool),
        j ≠ i → statsGet (statsPut s i pen det) j = statsGet s j)
    ∧ (∀ (cfg : httpfieldmerge_config) (msg : List SetRec) (T : Nat),
        T ∉ definedIds msg →
        statsGet (processMessageS cfg msg).1.templ_stats T = statsGet cfg.templ_stats T)
    ∧ (∀ (cfg : httpfieldmerge_config) (msg : List SetRec),
        (processMessageS cfg msg).1.params = cfg.params
          ∧ (processMessageS cfg msg).1.ip_id = cfg.ip_id) :=
  ⟨statsGet_statsPut_self, statsPut_statsPut_same,
   fun s i j pen det h => statsGet_statsPut_ne s i j pen det h,
   fun cfg msg T h => processMessageS_stats cfg msg T h,
   fun cfg msg => processMessageS_conf cfg msg⟩

/-- Witness for the memoization store theorem at concrete stores,
template ids and a concrete message. -/
theorem templ_stats_store_spec_witness :
    statsGet (statsPut [] 256 39499 true) 256 = some ⟨256, 39499, true⟩
    ∧ statsPut (statsPut [] 256 39499 true) 256 44913 true = statsPut [] 256 44913 true
    ∧ statsGet (statsPut [] 256 39499 true) 257 = statsGet [] 257
    ∧ statsGet (processMessageS ⟨"", 0, []⟩ [SetRec.dataSet 300 [0]]).1.templ_stats 256
      = statsGet (⟨"", 0, []⟩ : httpfieldmerge_config).templ_stats 256
    ∧ ((processMessageS ⟨"", 0, []⟩ [SetRec.dataSet 300 [0]]).1.params = ""
        ∧ (processMessageS ⟨"", 0, []⟩ [SetRec.dataSet 300 [0]]).1.ip_id = 0) :=
  ⟨templ_stats_store_spec.1 [] 256 39499 true,
   templ_stats_store_spec.2.1 [] 256 39499 44913 true true,
   templ_stats_store_spec.2.2.1 [] 256 257 39499 true (by decide),
   templ_stats_store_spec.2.2.2.1 ⟨"", 0, []⟩ [SetRec.dataSet 300 [0]] 256 (by simp [definedIds]),
   templ_stats_store_spec.2.2.2.2 ⟨"", 0, []⟩ [SetRec.dataSet 300 [0]]⟩
